import Mathlib

/-! # android-x86-injector: the mutating admission webhook

A shallow embedding of `src/android-x86-injector/webhook.go`.

* Go structs become Lean structures that keep the fields the program reads or writes.
* A Go pointer or slice that may be nil becomes an `Option`; the zero value of a
  struct is the structure with its default fields.
* A Go `[]byte` holding JSON text produced by the program is a `String`; the raw
  bytes received from the client are a list of bytes.
* `log.Printf` and `fmt.Println` calls are advisory output and are left out.
* Library calls whose code is outside the repository (`json.Unmarshal` into a pod,
  the scheme deserializer, `json.Marshal` of the envelope, the HTTP writer) are
  parameters of the functions that call them.
* A nil-pointer dereference is a run-time panic: the function returns `none`.
-/

set_option autoImplicit false

namespace Injector

/-! ## Data model -/

/-- Raw bytes as received from the client. -/
abbrev Bytes := List UInt8

/-- The part of `metav1.ObjectMeta` the webhook reads. `Labels` is a Go map:
`none` is the nil map, `some l` a map whose binding for a key is the first pair of
`l` with that key. -/
structure ObjectMeta where
  Name : String := ""
  Namespace : String := ""
  Labels : Option (List (String × String)) := none
deriving DecidableEq, Repr

/-- The part of `corev1.Container` the webhook reads. -/
structure Container where
  Name : String := ""
  Image : String := ""
deriving DecidableEq, Repr

/-- The part of `corev1.PodSpec` the webhook reads. -/
structure PodSpec where
  Containers : List Container := []
deriving DecidableEq, Repr

/-- The part of `corev1.Pod` the webhook reads. -/
structure Pod where
  ObjectMeta : ObjectMeta := {}
  Spec : PodSpec := {}
deriving DecidableEq, Repr

/-- The struct `patchOperation`; `Value` is an `interface{}` that is either nil or
holds a string in this program. -/
structure patchOperation where
  Op : String
  Path : String
  Value : Option String := none
deriving DecidableEq, Repr

/-- The struct `metav1.Status`, reduced to its message. -/
structure Status where
  Message : String := ""
deriving DecidableEq, Repr

/-- The struct `v1beta1.AdmissionResponse`. -/
structure AdmissionResponse where
  UID : String := ""
  Allowed : Bool := false
  Result : Option Status := none
  Patch : Option String := none
  PatchType : Option String := none
deriving DecidableEq, Repr

/-- The struct `metav1.GroupVersionKind`. -/
structure GroupVersionKind where
  Group : String := ""
  Version : String := ""
  Kind : String := ""
deriving DecidableEq, Repr

/-- The struct `authenticationv1.UserInfo`, without its extra map. -/
structure UserInfo where
  Username : String := ""
  UID : String := ""
  Groups : List String := []
deriving DecidableEq, Repr

/-- The struct `runtime.RawExtension`, reduced to its raw bytes. -/
structure RawExtension where
  Raw : Bytes := []
deriving DecidableEq, Repr

/-- The struct `v1beta1.AdmissionRequest`, with the fields `mutate` and `serve` touch. -/
structure AdmissionRequest where
  UID : String := ""
  Kind : GroupVersionKind := {}
  Namespace : String := ""
  Name : String := ""
  Operation : String := ""
  UserInfo : UserInfo := {}
  Object : RawExtension := {}
deriving DecidableEq, Repr

/-- The struct `v1beta1.AdmissionReview`; both fields are pointers. -/
structure AdmissionReview where
  Request : Option AdmissionRequest := none
  Response : Option AdmissionResponse := none
deriving DecidableEq, Repr

/-! ## Constants -/

/-- The constant `metav1.NamespaceSystem`. -/
def NamespaceSystem : String := "kube-system"

/-- The constant `metav1.NamespacePublic`. -/
def NamespacePublic : String := "kube-public"

/-- The package variable `ignoredNamespaces`. -/
def ignoredNamespaces : List String := [NamespaceSystem, NamespacePublic]

def kubevirtFlavorKey : String := "kubevirt.io/flavor"
def kubevirtKey : String := "kubevirt.io"
def virtLauncherValue : String := "virt-launcher"
def androidFlavorValue : String := "android"

/-- The constant `v1beta1.PatchTypeJSONPatch`. -/
def PatchTypeJSONPatch : String := "JSONPatch"

/-- The image literal written by `patchPod`. -/
def launcherImage : String := "quay.io/quamotion/android-x86-launcher:latest"

def StatusBadRequest : Nat := 400
def StatusUnsupportedMediaType : Nat := 415
def StatusInternalServerError : Nat := 500
def StatusOK : Nat := 200

/-! ## Policy evaluator -/

/-- The method `ObjectMeta.GetLabels`. -/
def ObjectMeta.GetLabels (meta : ObjectMeta) : Option (List (String × String)) :=
  meta.Labels

/-- The function `mutationRequired` (webhook.go, lines 67-104). -/
def mutationRequired (ignoredList : List String) (metadata : ObjectMeta) : Bool :=
  if ignoredList.any (fun ns => metadata.Namespace == ns) then
    false
  else
    match metadata.GetLabels with
    | none => false
    | some labels =>
      match labels.lookup kubevirtFlavorKey with
      | none => false
      | some flavor =>
        if flavor != androidFlavorValue then
          false
        else
          match labels.lookup kubevirtKey with
          | none => false
          | some flavor2 =>
            if flavor2 != virtLauncherValue then false else true

/-! ## Patch builder -/

/-- The loop of `patchPod` (lines 111-119): `i` is the loop counter, the last
argument the current value of `computeIndex`. -/
def scanContainers : List Container → Nat → Int → Int
  | [], _, computeIndex => computeIndex
  | container :: rest, i, computeIndex =>
    scanContainers rest (i + 1) (if container.Name = "compute" then (i : Int) else computeIndex)

/-- Go's `append` on a slice that may be nil. -/
def goAppend {α : Type} (s : Option (List α)) (x : α) : Option (List α) :=
  some (s.getD [] ++ [x])

/-- Length of a Go slice that may be nil. -/
def goLen {α : Type} (s : Option (List α)) : Nat :=
  (s.getD []).length

/-- The value of the local variable `patch` of `patchPod` when line 131 is reached. -/
def patchPodOps (pod : Pod) : Option (List patchOperation) :=
  let patch : Option (List patchOperation) := none
  let computeIndex := scanContainers pod.Spec.Containers 0 (-1)
  if computeIndex = -1 then
    patch
  else
    goAppend patch
      { Op := "replace"
        Path := "/spec/containers/" ++ toString computeIndex ++ "/image"
        Value := some launcherImage }

/-- Lower-case hexadecimal digit. -/
def hexDigit (n : Nat) : Char :=
  if n < 10 then Char.ofNat (48 + n) else Char.ofNat (87 + n)

/-- Escape of one character inside a JSON string, as `encoding/json` writes it with
HTML escaping on (the setting of `json.Marshal`). -/
def jsonEscapeChar (c : Char) : List Char :=
  if c = Char.ofNat 34 ∨ c = Char.ofNat 92 then [Char.ofNat 92, c]
  else if c = Char.ofNat 10 then [Char.ofNat 92, 'n']
  else if c = Char.ofNat 13 then [Char.ofNat 92, 'r']
  else if c = Char.ofNat 9 then [Char.ofNat 92, 't']
  else if c.toNat < 32 ∨ c = '<' ∨ c = '>' ∨ c = '&' then
    [Char.ofNat 92, 'u', '0', '0', hexDigit (c.toNat / 16), hexDigit (c.toNat % 16)]
  else if c.toNat = 8232 then (Char.ofNat 92 :: "u2028".toList)
  else if c.toNat = 8233 then (Char.ofNat 92 :: "u2029".toList)
  else [c]

/-- JSON encoding of a Go string. -/
def jsonString (s : String) : String :=
  String.mk ([Char.ofNat 34] ++ s.toList.flatMap jsonEscapeChar ++ [Char.ofNat 34])

/-- JSON encoding of one `patchOperation`, following its struct tags
(`op`, `path`, `value,omitempty`). -/
def jsonPatchOperation (p : patchOperation) : String :=
  "\x7b\"op\":" ++ jsonString p.Op ++ ",\"path\":" ++ jsonString p.Path ++
    (match p.Value with
     | none => ""
     | some v => ",\"value\":" ++ jsonString v) ++ "\x7d"

/-- The call `json.Marshal(patch)` for a `[]patchOperation`: a nil slice encodes as
the JSON value `null`, any other slice as a JSON array. The call cannot fail for
this type. -/
def jsonMarshalPatch : Option (List patchOperation) → Except String String
  | none => .ok "null"
  | some ops => .ok ("[" ++ ",".intercalate (ops.map jsonPatchOperation) ++ "]")

/-- The function `patchPod` (lines 106-132). -/
def patchPod (pod : Pod) : Except String String :=
  jsonMarshalPatch (patchPodOps pod)

/-! ## Request orchestrator -/

/-- The method `WebhookServer.mutate` (lines 135-178). `unmarshalPod` is the call
`json.Unmarshal(req.Object.Raw, &pod)` on a zero pod: the decoded pod, or the
error message. The result is `none` when `ar.Request` is nil, where line 138
dereferences a nil pointer. -/
def mutate (unmarshalPod : Bytes → Except String Pod) (ar : AdmissionReview) :
    Option AdmissionResponse :=
  match ar.Request with
  | none => none
  | some req =>
    match unmarshalPod req.Object.Raw with
    | .error err => some { Result := some { Message := err } }
    | .ok pod =>
      if !mutationRequired ignoredNamespaces pod.ObjectMeta then
        some { Allowed := true }
      else
        match patchPod pod with
        | .error err => some { Result := some { Message := err } }
        | .ok patchBytes =>
          some { Allowed := true, Patch := some patchBytes, PatchType := some PatchTypeJSONPatch }

/-! ## Transport layer -/

/-- What `serve` reads from the `*http.Request`. `Body` is `none` for a nil body,
otherwise the result of `ioutil.ReadAll`; `ContentType` is
`r.Header.Get("Content-Type")`; `Path` is `r.URL.Path`. -/
structure HttpRequest where
  Body : Option (Except String Bytes) := none
  ContentType : String := ""
  Path : String := ""

/-- The library calls made by `serve` and `mutate`.
* `unmarshalPod`: `json.Unmarshal(req.Object.Raw, &pod)`;
* `decode`: `deserializer.Decode(body, nil, &ar)` on a zero `ar`: the value of
  `ar` after the call and the error, if any;
* `marshalReview`: `json.Marshal(admissionReview)`;
* `writeError`: the error of `w.Write(resp)`, if any. -/
structure Deps where
  unmarshalPod : Bytes → Except String Pod
  decode : Bytes → AdmissionReview × Option String
  marshalReview : AdmissionReview → Except String String
  writeError : Option String := none

/-- A call made on the `http.ResponseWriter`. -/
inductive WriterCall where
  | httpError (msg : String) (code : Nat)
  | write (data : Option String)
deriving DecidableEq, Repr

/-- What a run of `serve` does: the calls on the response writer, in order, and
the value of the local variable `admissionReview` when line 226 is reached. -/
structure ServeTrace where
  calls : List WriterCall
  admissionReview : Option AdmissionReview
deriving DecidableEq, Repr

/-- The HTTP status of a response: `http.Error` writes its code, a first `Write`
writes 200, and only the first header written counts. -/
def ServeTrace.status (t : ServeTrace) : Nat :=
  match t.calls with
  | WriterCall.httpError _ code :: _ => code
  | _ => StatusOK

/-- Lines 202-216 of `serve`: the local variable `admissionResponse` after the
decode step, together with `ar`. The outer `none` is a panic inside `mutate`. -/
def serveResponse (d : Deps) (r : HttpRequest) (body : Bytes) :
    Option (AdmissionReview × Option AdmissionResponse) :=
  match d.decode body with
  | (ar, some err) => some (ar, some { Result := some { Message := err } })
  | (ar, none) =>
    if r.Path = "/mutate" then
      match mutate d.unmarshalPod ar with
      | none => none
      | some resp => some (ar, some resp)
    else
      some (ar, none)

/-- Lines 218-224 of `serve`: the envelope that is marshalled. -/
def serveEnvelope (ar : AdmissionReview) (admissionResponse : Option AdmissionResponse) :
    AdmissionReview :=
  match admissionResponse with
  | none => {}
  | some resp =>
    match ar.Request with
    | some req => { Response := some { resp with UID := req.UID } }
    | none => { Response := some resp }

/-- The method `WebhookServer.serve` (lines 181-236). The result is `none` when
the handler panics. -/
def serve (d : Deps) (r : HttpRequest) : Option ServeTrace :=
  let body : Bytes :=
    match r.Body with
    | some (.ok data) => data
    | _ => []
  if body.length = 0 then
    some ⟨[.httpError "empty body" StatusBadRequest], none⟩
  else if r.ContentType ≠ "application/json" then
    some ⟨[.httpError "invalid Content-Type, expect `application/json`"
      StatusUnsupportedMediaType], none⟩
  else
    match serveResponse d r body with
    | none => none
    | some (ar, admissionResponse) =>
      let admissionReview := serveEnvelope ar admissionResponse
      let (resp, calls1) : Option String × List WriterCall :=
        match d.marshalReview admissionReview with
        | .ok b => (some b, [])
        | .error err =>
          (none, [.httpError ("could not encode response: " ++ err) StatusInternalServerError])
      let calls2 : List WriterCall :=
        match d.writeError with
        | none => []
        | some err =>
          [.httpError ("could not write response: " ++ err) StatusInternalServerError]
      some ⟨calls1 ++ [.write resp] ++ calls2, some admissionReview⟩

/-! ## Sample inputs -/

/-- UTF-8 bytes of a text. -/
def bytesOf (s : String) : Bytes :=
  s.toUTF8.data.toList

/-- Labels selecting a pod for mutation. -/
def androidLabels : List (String × String) :=
  [("kubevirt.io/flavor", "android"), ("kubevirt.io", "virt-launcher")]

/-- Scenario A: a pod in `kube-system` with an empty label map. -/
def podA : Pod :=
  { ObjectMeta := { Name := "a", Namespace := "kube-system", Labels := some [] } }

/-- JSON document of scenario A. -/
def podAJson : String :=
  "\x7b\"metadata\":\x7b\"name\":\"a\",\"namespace\":\"kube-system\",\"labels\":\x7b\x7d\x7d,\"spec\":\x7b\x7d\x7d"

/-- Scenario B: namespace `default`, both labels, containers `init` and `compute`. -/
def podB : Pod :=
  { ObjectMeta := { Name := "b", Namespace := "default", Labels := some androidLabels }
    Spec := { Containers := [⟨"init", "x"⟩, ⟨"compute", "old"⟩] } }

/-- JSON document of scenario B. -/
def podBJson : String :=
  "\x7b\"metadata\":\x7b\"name\":\"b\",\"namespace\":\"default\",\"labels\":\x7b\"kubevirt.io/flavor\":\"android\",\"kubevirt.io\":\"virt-launcher\"\x7d\x7d,\"spec\":\x7b\"containers\":[\x7b\"name\":\"init\",\"image\":\"x\"\x7d,\x7b\"name\":\"compute\",\"image\":\"old\"\x7d]\x7d\x7d"

/-- Scenario C: the labels of scenario B, one container `sidecar`. -/
def podC : Pod :=
  { ObjectMeta := { Name := "c", Namespace := "default", Labels := some androidLabels }
    Spec := { Containers := [⟨"sidecar", "y"⟩] } }

/-- JSON document of scenario C. -/
def podCJson : String :=
  "\x7b\"metadata\":\x7b\"name\":\"c\",\"namespace\":\"default\",\"labels\":\x7b\"kubevirt.io/flavor\":\"android\",\"kubevirt.io\":\"virt-launcher\"\x7d\x7d,\"spec\":\x7b\"containers\":[\x7b\"name\":\"sidecar\",\"image\":\"y\"\x7d]\x7d\x7d"

/-- A stand-in for `json.Unmarshal` on one sample document: the bytes of `doc`
decode to `pod`; every other input is rejected, the empty input with the message
`encoding/json` gives for it. -/
def unmarshalSample (doc : String) (pod : Pod) (raw : Bytes) : Except String Pod :=
  if raw = bytesOf doc then .ok pod
  else if raw = [] then .error "unexpected end of JSON input"
  else .error "invalid character looking for beginning of value"

/-- An admission review for the creation of a pod whose request embeds the bytes
of `doc`. -/
def reviewOf (doc : String) : AdmissionReview :=
  { Request := some
      { UID := "uid-1"
        Kind := { Group := "", Version := "v1", Kind := "Pod" }
        Namespace := "default"
        Operation := "CREATE"
        Object := { Raw := bytesOf doc } } }

/-- An admission review whose request carries no object bytes. -/
def reviewNoObject : AdmissionReview :=
  { Request := some { UID := "uid-1", Namespace := "default", Name := "p" } }

/-- JSON text of the admission review that embeds the document `doc`. -/
def reviewJson (doc : String) : String :=
  "\x7b\"kind\":\"AdmissionReview\",\"apiVersion\":\"admission.k8s.io/v1beta1\",\"request\":\x7b\"uid\":\"uid-1\",\"kind\":\x7b\"group\":\"\",\"version\":\"v1\",\"kind\":\"Pod\"\x7d,\"namespace\":\"default\",\"operation\":\"CREATE\",\"object\":"
    ++ doc ++ "\x7d\x7d"

/-- Stand-ins for the library calls of `serve` on one sample document: the body
`reviewJson doc` decodes to the review that embeds `doc`, every other body is
rejected, and the envelope is written as a fixed text. -/
def sampleDeps (doc : String) (pod : Pod) : Deps :=
  { unmarshalPod := unmarshalSample doc pod
    decode := fun body =>
      if body = bytesOf (reviewJson doc) then (reviewOf doc, none)
      else ({}, some "couldn't get version/kind; json parse error")
    marshalReview := fun _ => .ok "envelope" }

/-- A POST of the review of `doc` to the mutation endpoint. -/
def sampleRequest (doc : String) : HttpRequest :=
  { Body := some (.ok (bytesOf (reviewJson doc)))
    ContentType := "application/json"
    Path := "/mutate" }

/-- The JSON patch of scenario B. -/
def patchB : String :=
  "[\x7b\"op\":\"replace\",\"path\":\"/spec/containers/1/image\",\"value\":\"quay.io/quamotion/android-x86-launcher:latest\"\x7d]"

/-- A stand-in for `deserializer.Decode` on one sample body: on the bytes of `doc`
the call leaves `ar` in the state `after` and returns the error `err`, if any;
every other body is rejected before `ar` is written. -/
def decodeSample (doc : String) (after : AdmissionReview) (err : Option String)
    (body : Bytes) : AdmissionReview × Option String :=
  if body = bytesOf doc then (after, err)
  else ({}, some "couldn't get version/kind; json parse error")

/-- Stand-ins for the library calls of `serve` on one sample body: the decoder is
`decodeSample`, pods are decoded as in scenario B, and the envelope is written as
a fixed text. -/
def depsFor (doc : String) (after : AdmissionReview) (err : Option String) : Deps :=
  { unmarshalPod := unmarshalSample podBJson podB
    decode := decodeSample doc after err
    marshalReview := fun _ => .ok "envelope" }

/-- A POST of the JSON body `doc` to `path`. -/
def requestOf (doc : String) (path : String) : HttpRequest :=
  { Body := some (.ok (bytesOf doc))
    ContentType := "application/json"
    Path := path }

/-- An envelope without a request member. -/
def noRequestJson : String :=
  "\x7b\"kind\":\"AdmissionReview\",\"apiVersion\":\"admission.k8s.io/v1beta1\"\x7d"

/-- An envelope whose request member is well formed and whose response member has
the wrong JSON type: the decoder fills the request, then fails. -/
def brokenResponseJson : String :=
  "\x7b\"kind\":\"AdmissionReview\",\"apiVersion\":\"admission.k8s.io/v1beta1\",\"request\":\x7b\"uid\":\"uid-1\"\x7d,\"response\":\"x\"\x7d"

/-- A body that is not JSON. -/
def malformedJson : String := "\x7b\"kind\":"

/-! ## Effect of the patch -/

/-- The containers after the operation `replace /spec/containers/k/image` with
value `image` is applied by the API server: the image of the container at
position `k` is replaced, every name and every other container is kept. -/
def replaceImageAt : List Container → Nat → String → List Container
  | [], _, _ => []
  | c :: cs, 0, image => { c with Image := image } :: cs
  | c :: cs, k + 1, image => c :: replaceImageAt cs k image

/-- The pod after the operation `replace /spec/containers/k/image`. -/
def Pod.replaceImage (pod : Pod) (k : Nat) (image : String) : Pod :=
  { pod with Spec := { pod.Spec with Containers := replaceImageAt pod.Spec.Containers k image } }

/-! ## Properties of responses -/

/-- The invariant of admission responses: a response that is not allowed or that
carries an error status has no patch, and a response with a patch is allowed. -/
def patchInvariant (resp : AdmissionResponse) : Prop :=
  ((resp.Allowed = false ∨ resp.Result ≠ none) → resp.Patch = none) ∧
    (resp.Patch ≠ none → resp.Allowed = true)

/-! ## Policy evaluator: proofs -/

/-- The policy evaluator answers true exactly when the namespace is not ignored and
both labels are bound to their expected values. -/
theorem mutationRequired_eq_true_iff (ignoredList : List String) (metadata : ObjectMeta) :
    mutationRequired ignoredList metadata = true ↔
      metadata.Namespace ∉ ignoredList ∧
        ∃ labels, metadata.Labels = some labels ∧
          labels.lookup kubevirtFlavorKey = some androidFlavorValue ∧
          labels.lookup kubevirtKey = some virtLauncherValue := by
  unfold mutationRequired ObjectMeta.GetLabels
  by_cases hns : metadata.Namespace ∈ ignoredList
  · have hany : ignoredList.any (fun ns => metadata.Namespace == ns) = true := by
      rw [List.any_eq_true]
      exact ⟨metadata.Namespace, hns, by simp⟩
    simp [hany, hns]
  · have hany : ignoredList.any (fun ns => metadata.Namespace == ns) = false := by
      rw [Bool.eq_false_iff]
      intro hc
      rw [List.any_eq_true] at hc
      obtain ⟨x, hx, hxe⟩ := hc
      have : metadata.Namespace = x := by simpa using hxe
      exact hns (this ▸ hx)
    simp only [hany, hns, not_false_eq_true, true_and]
    cases hl : metadata.Labels with
    | none => simp
    | some labels =>
      cases hf : labels.lookup kubevirtFlavorKey with
      | none => simp [hf]
      | some flavor =>
        by_cases hfe : flavor = androidFlavorValue
        · cases hk : labels.lookup kubevirtKey with
          | none => simp [hf, hk, hfe]
          | some flavor2 =>
            by_cases hke : flavor2 = virtLauncherValue
            · simp [hf, hk, hfe, hke]
            · simp [hf, hk, hfe, hke]
        · simp [hf, hfe]

/-- C1: when the namespace of the object is a member of the ignored list, the
policy evaluator returns false whatever the labels are; the list used by `mutate`
holds `kube-system` and `kube-public`. -/
theorem mutationRequired_ignored_namespace (ignoredList : List String) (metadata : ObjectMeta)
    (h : metadata.Namespace ∈ ignoredList) :
    mutationRequired ignoredList metadata = false ∧
      ignoredNamespaces = ["kube-system", "kube-public"] := by
  refine ⟨?_, rfl⟩
  rw [Bool.eq_false_iff]
  intro hc
  exact ((mutationRequired_eq_true_iff ignoredList metadata).mp hc).1 h

/-- Witness for C1: a pod in `kube-system` carrying both required labels. -/
theorem mutationRequired_ignored_namespace_witness :
    mutationRequired ignoredNamespaces
        { Name := "vm", Namespace := "kube-system", Labels := some androidLabels } = false ∧
      ignoredNamespaces = ["kube-system", "kube-public"] :=
  mutationRequired_ignored_namespace ignoredNamespaces
    { Name := "vm", Namespace := "kube-system", Labels := some androidLabels } (by decide)

/-- C2: when the namespace is not in the ignored list, the label
`kubevirt.io/flavor` is bound to `android` and the label `kubevirt.io` is bound to
`virt-launcher`, the policy evaluator returns true, whatever the name and the other
labels are. -/
theorem mutationRequired_selected (ignoredList : List String) (metadata : ObjectMeta)
    (labels : List (String × String))
    (hns : metadata.Namespace ∉ ignoredList)
    (hlabels : metadata.Labels = some labels)
    (hflavor : labels.lookup "kubevirt.io/flavor" = some "android")
    (hkubevirt : labels.lookup "kubevirt.io" = some "virt-launcher") :
    mutationRequired ignoredList metadata = true :=
  (mutationRequired_eq_true_iff ignoredList metadata).mpr ⟨hns, labels, hlabels, hflavor, hkubevirt⟩

/-- Witness for C2: a pod in `default` with a third, unrelated label. -/
theorem mutationRequired_selected_witness :
    mutationRequired ignoredNamespaces
        { Name := "vm", Namespace := "default",
          Labels := some [("app", "x"), ("kubevirt.io", "virt-launcher"),
            ("kubevirt.io/flavor", "android")] } = true :=
  mutationRequired_selected ignoredNamespaces
    { Name := "vm", Namespace := "default",
      Labels := some [("app", "x"), ("kubevirt.io", "virt-launcher"),
        ("kubevirt.io/flavor", "android")] }
    [("app", "x"), ("kubevirt.io", "virt-launcher"), ("kubevirt.io/flavor", "android")]
    (by decide) rfl (by decide) (by decide)

/-- C3: when the label map is nil or empty, or the label `kubevirt.io/flavor` is
missing or bound to a value other than `android`, or the label `kubevirt.io` is
missing or bound to a value other than `virt-launcher`, the policy evaluator
returns false, for every ignored list and namespace. -/
theorem mutationRequired_false_of_labels (ignoredList : List String) (metadata : ObjectMeta)
    (h : metadata.Labels = none ∨ metadata.Labels = some [] ∨
      ∃ labels, metadata.Labels = some labels ∧
        (labels.lookup "kubevirt.io/flavor" ≠ some "android" ∨
          labels.lookup "kubevirt.io" ≠ some "virt-launcher")) :
    mutationRequired ignoredList metadata = false := by
  rw [Bool.eq_false_iff]
  intro hc
  obtain ⟨_, labels, hl, hf, hk⟩ := (mutationRequired_eq_true_iff ignoredList metadata).mp hc
  rcases h with h | h | ⟨labels2, hl2, h⟩
  · rw [hl] at h
    exact Option.noConfusion h
  · rw [hl] at h
    have hnil : labels = [] := Option.some.inj h
    subst hnil
    exact Option.noConfusion hf
  · rw [hl] at hl2
    have hsame : labels = labels2 := Option.some.inj hl2
    subst hsame
    rcases h with h | h
    · exact h hf
    · exact h hk

/-- Witness for C3: the flavor label is right, the `kubevirt.io` label has another
value, and the namespace is not ignored. -/
theorem mutationRequired_false_of_labels_witness :
    mutationRequired ignoredNamespaces
        { Name := "vm", Namespace := "default",
          Labels := some [("kubevirt.io/flavor", "android"), ("kubevirt.io", "virt-handler")] }
      = false :=
  mutationRequired_false_of_labels ignoredNamespaces
    { Name := "vm", Namespace := "default",
      Labels := some [("kubevirt.io/flavor", "android"), ("kubevirt.io", "virt-handler")] }
    (Or.inr (Or.inr ⟨[("kubevirt.io/flavor", "android"), ("kubevirt.io", "virt-handler")],
      rfl, Or.inr (by decide)⟩))

/-! ## Patch builder: proofs -/

/-- The loop leaves `computeIndex` unchanged when no container is named `compute`. -/
theorem scanContainers_of_no_compute (cs : List Container) (i : Nat) (computeIndex : Int)
    (h : ∀ c ∈ cs, c.Name ≠ "compute") : scanContainers cs i computeIndex = computeIndex := by
  induction cs generalizing i computeIndex with
  | nil => rfl
  | cons c rest ih =>
    have hc : c.Name ≠ "compute" := h c (List.mem_cons_self _ _)
    simp only [scanContainers, hc, if_false]
    exact ih (i + 1) computeIndex (fun d hd => h d (List.mem_cons_of_mem _ hd))

/-- The loop ends with the position of the last container named `compute`. -/
theorem scanContainers_last (pre post : List Container) (c : Container) (i : Nat)
    (computeIndex : Int) (hc : c.Name = "compute") (hpost : ∀ d ∈ post, d.Name ≠ "compute") :
    scanContainers (pre ++ c :: post) i computeIndex = ((i + pre.length : Nat) : Int) := by
  induction pre generalizing i computeIndex with
  | nil =>
    simp only [List.nil_append, scanContainers, hc, if_true, List.length_nil, Nat.add_zero]
    exact scanContainers_of_no_compute post (i + 1) _ hpost
  | cons p ps ih =>
    show scanContainers (ps ++ c :: post) (i + 1) _ = _
    rw [ih, List.length_cons]
    congr 1
    omega

/-- A list split around its element at position `k`. -/
theorem split_at_index (cs : List Container) (k : Nat) (c : Container) (h : cs[k]? = some c) :
    cs = cs.take k ++ c :: cs.drop (k + 1) ∧ (cs.take k).length = k := by
  have hk : k < cs.length := by
    rcases Nat.lt_or_ge k cs.length with hlt | hge
    · exact hlt
    · rw [List.getElem?_eq_none hge] at h
      exact Option.noConfusion h
  have hget : cs[k] = c := by
    rw [List.getElem?_eq_getElem hk] at h
    exact Option.some.inj h
  refine ⟨?_, ?_⟩
  · rw [← hget, List.getElem_cons_drop cs k hk, List.take_append_drop]
  · rw [List.length_take]; omega

/-- Formatting a non-negative `int` gives the decimal digits of the number. -/
theorem toString_ofNat (k : Nat) : toString ((k : Nat) : Int) = toString k := rfl

/-- The character of a decimal digit is a digit. -/
theorem digitChar_isDigit (m : Nat) (h : m < 10) : (Nat.digitChar m).isDigit = true := by
  interval_cases m <;> decide

/-- The decimal rendering loop only produces digits. -/
theorem toDigitsCore_isDigit (fuel n : Nat) (acc : List Char)
    (hacc : ∀ c ∈ acc, c.isDigit = true) :
    ∀ c ∈ Nat.toDigitsCore 10 fuel n acc, c.isDigit = true := by
  induction fuel generalizing n acc with
  | zero => simpa [Nat.toDigitsCore] using hacc
  | succ f ih =>
    have hacc2 : ∀ c ∈ Nat.digitChar (n % 10) :: acc, c.isDigit = true := by
      intro c hc
      rcases List.mem_cons.mp hc with h | h
      · rw [h]; exact digitChar_isDigit _ (Nat.mod_lt _ (by decide))
      · exact hacc c h
    simp only [Nat.toDigitsCore]
    split
    · exact hacc2
    · exact ih _ _ hacc2

/-- The decimal rendering of a natural number consists of digits. -/
theorem repr_isDigit (k : Nat) : ∀ c ∈ (toString k).toList, c.isDigit = true := by
  show ∀ c ∈ (Nat.repr k).toList, c.isDigit = true
  simp only [Nat.repr, Nat.toDigits, List.asString, String.toList]
  exact toDigitsCore_isDigit _ _ [] (fun c hc => absurd hc (List.not_mem_nil c))

/-- A digit is written unescaped inside a JSON string. -/
theorem jsonEscapeChar_of_isDigit (c : Char) (h : c.isDigit = true) : jsonEscapeChar c = [c] := by
  have hb : 48 ≤ c.toNat ∧ c.toNat ≤ 57 := by
    simp only [Char.isDigit, Bool.and_eq_true, decide_eq_true_eq] at h
    exact ⟨h.1, h.2⟩
  have hc : c = Char.ofNat c.toNat := (Char.ofNat_toNat c).symm
  generalize c.toNat = n at hb hc
  obtain ⟨h1, h2⟩ := hb
  subst hc
  interval_cases n <;> decide

/-- A run of digits is written unescaped inside a JSON string. -/
theorem flatMap_jsonEscapeChar_digits (l : List Char) (h : ∀ c ∈ l, c.isDigit = true) :
    l.flatMap jsonEscapeChar = l := by
  induction l with
  | nil => rfl
  | cons c cs ih =>
    rw [List.flatMap_cons, jsonEscapeChar_of_isDigit c (h c (List.mem_cons_self _ _)),
      ih (fun d hd => h d (List.mem_cons_of_mem _ hd))]
    rfl

/-- JSON encoding of the path of the patch operation. -/
theorem jsonString_path (k : Nat) :
    jsonString ("/spec/containers/" ++ toString k ++ "/image") =
      "\"/spec/containers/" ++ toString k ++ "/image\"" := by
  apply String.ext
  have hdigits : (toString k).data.flatMap jsonEscapeChar = (toString k).data :=
    flatMap_jsonEscapeChar_digits _ (repr_isDigit k)
  have hpre : "/spec/containers/".data.flatMap jsonEscapeChar = "/spec/containers/".data := by
    decide
  have hpost : "/image".data.flatMap jsonEscapeChar = "/image".data := by decide
  simp only [jsonString, String.toList, String.data_append, List.flatMap_append, hdigits, hpre,
    hpost]
  simp

/-- The loop finds position `k` when `compute` is there and nowhere after it. -/
theorem scanContainers_at (cs : List Container) (k : Nat)
    (hk : (cs[k]?).map Container.Name = some "compute")
    (hlast : ∀ j, k < j → (cs[j]?).map Container.Name ≠ some "compute") :
    scanContainers cs 0 (-1) = (k : Int) := by
  cases hc : cs[k]? with
  | none => rw [hc] at hk; exact Option.noConfusion hk
  | some c =>
    rw [hc] at hk
    have hname : c.Name = "compute" := Option.some.inj hk
    obtain ⟨hsplit, hlen⟩ := split_at_index cs k c hc
    have hpost : ∀ d ∈ cs.drop (k + 1), d.Name ≠ "compute" := by
      intro d hd hdn
      obtain ⟨j, hj⟩ := List.mem_iff_getElem?.mp hd
      rw [List.getElem?_drop] at hj
      exact hlast (k + 1 + j) (by omega) (by rw [hj]; simp [hdn])
    have hscan := scanContainers_last (cs.take k) (cs.drop (k + 1)) c 0 (-1) hname hpost
    rw [← hsplit, hlen, Nat.zero_add] at hscan
    exact hscan

/-- The operation list of `patchPod` when the loop ends with index `k`. -/
theorem patchPodOps_of_scan (pod : Pod) (k : Nat)
    (h : scanContainers pod.Spec.Containers 0 (-1) = (k : Int)) :
    patchPodOps pod = some [⟨"replace", "/spec/containers/" ++ toString k ++ "/image",
      some "quay.io/quamotion/android-x86-launcher:latest"⟩] := by
  have hne : ((k : Nat) : Int) ≠ -1 := by omega
  simp only [patchPodOps, h, hne, if_false, goAppend, Option.getD_none, List.nil_append,
    toString_ofNat]
  rfl

/-- JSON text of the one-operation patch. -/
theorem jsonMarshalPatch_single (k : Nat) :
    jsonMarshalPatch (some [⟨"replace", "/spec/containers/" ++ toString k ++ "/image",
      some "quay.io/quamotion/android-x86-launcher:latest"⟩]) =
    .ok ("[\x7b\"op\":\"replace\",\"path\":\"/spec/containers/" ++ toString k ++
      "/image\",\"value\":\"quay.io/quamotion/android-x86-launcher:latest\"\x7d]") := by
  have hop : jsonString "replace" = "\"replace\"" := by decide
  have himg : jsonString "quay.io/quamotion/android-x86-launcher:latest" =
      "\"quay.io/quamotion/android-x86-launcher:latest\"" := by decide
  simp only [jsonMarshalPatch, List.map, jsonPatchOperation, jsonString_path, hop, himg]
  congr 1
  apply String.ext
  simp [String.intercalate, String.intercalate.go, String.data_append]

/-- C4: when the container named `compute` is at zero-based position `k` and no
other container has that name, `patchPod` returns without error a patch of exactly
one operation: `replace` of `/spec/containers/k/image`, with `k` in decimal, by the
fixed image. Both the operation list and its JSON text are given. -/
theorem patchPod_compute_at (pod : Pod) (k : Nat)
    (hk : (pod.Spec.Containers[k]?).map Container.Name = some "compute")
    (huniq : ∀ j, (pod.Spec.Containers[j]?).map Container.Name = some "compute" → j = k) :
    patchPodOps pod = some [⟨"replace", "/spec/containers/" ++ toString k ++ "/image",
        some "quay.io/quamotion/android-x86-launcher:latest"⟩] ∧
      patchPod pod = .ok ("[\x7b\"op\":\"replace\",\"path\":\"/spec/containers/" ++ toString k ++
        "/image\",\"value\":\"quay.io/quamotion/android-x86-launcher:latest\"\x7d]") := by
  have hscan : scanContainers pod.Spec.Containers 0 (-1) = (k : Int) :=
    scanContainers_at pod.Spec.Containers k hk
      (fun j hj hc => absurd (huniq j hc) (Nat.ne_of_gt hj))
  have hops := patchPodOps_of_scan pod k hscan
  refine ⟨hops, ?_⟩
  rw [patchPod, hops]
  exact jsonMarshalPatch_single k

/-- Witness for C4: three containers, `compute` at position 2. -/
theorem patchPod_compute_at_witness :
    patchPodOps { Spec := { Containers := [⟨"init", "x"⟩, ⟨"sidecar", "y"⟩, ⟨"compute", "z"⟩] } }
        = some [⟨"replace", "/spec/containers/2/image",
          some "quay.io/quamotion/android-x86-launcher:latest"⟩] ∧
      patchPod { Spec := { Containers := [⟨"init", "x"⟩, ⟨"sidecar", "y"⟩, ⟨"compute", "z"⟩] } }
        = .ok "[\x7b\"op\":\"replace\",\"path\":\"/spec/containers/2/image\",\"value\":\"quay.io/quamotion/android-x86-launcher:latest\"\x7d]" :=
  patchPod_compute_at
    { Spec := { Containers := [⟨"init", "x"⟩, ⟨"sidecar", "y"⟩, ⟨"compute", "z"⟩] } } 2
    (by decide)
    (by
      intro j hj
      match j, hj with
      | 0, hj => exact absurd hj (by decide)
      | 1, hj => exact absurd hj (by decide)
      | 2, _ => rfl
      | j + 3, hj => exact absurd hj (by simp))

/-- C5: when no container is named exactly `compute` (the empty sequence
included), `patchPod` returns without error and its operation list has no
operation: the list is the nil slice, which `json.Marshal` writes as `null`. -/
theorem patchPod_no_compute (pod : Pod)
    (h : ∀ c ∈ pod.Spec.Containers, c.Name ≠ "compute") :
    goLen (patchPodOps pod) = 0 ∧ patchPodOps pod = none ∧ patchPod pod = .ok "null" := by
  have hscan := scanContainers_of_no_compute pod.Spec.Containers 0 (-1) h
  have hops : patchPodOps pod = none := by
    simp only [patchPodOps, hscan, if_true]
  refine ⟨?_, hops, ?_⟩
  · rw [hops]; rfl
  · rw [patchPod, hops]; rfl

/-- Witness for C5: a container whose name differs from `compute` only in case. -/
theorem patchPod_no_compute_witness :
    goLen (patchPodOps { Spec := { Containers := [⟨"Compute", "x"⟩] } }) = 0 ∧
      patchPodOps { Spec := { Containers := [⟨"Compute", "x"⟩] } } = none ∧
      patchPod { Spec := { Containers := [⟨"Compute", "x"⟩] } } = .ok "null" :=
  patchPod_no_compute { Spec := { Containers := [⟨"Compute", "x"⟩] } } (by decide)

/-! ## Request orchestrator: proofs -/

/-- The sample decoder accepts its own document. -/
theorem unmarshalSample_self (doc : String) (pod : Pod) :
    unmarshalSample doc pod (bytesOf doc) = .ok pod := by
  simp [unmarshalSample]

/-- The result of `mutate` on a request whose object decodes to a pod that the
policy selects. -/
theorem mutate_of_required (unmarshalPod : Bytes → Except String Pod) (ar : AdmissionReview)
    (req : AdmissionRequest) (pod : Pod) (hreq : ar.Request = some req)
    (hdec : unmarshalPod req.Object.Raw = .ok pod)
    (hmut : mutationRequired ignoredNamespaces pod.ObjectMeta = true) :
    mutate unmarshalPod ar =
      match patchPod pod with
      | .error err => some { Result := some { Message := err } }
      | .ok patchBytes =>
        some { Allowed := true, Patch := some patchBytes, PatchType := some PatchTypeJSONPatch } := by
  simp [mutate, hreq, hdec, hmut]

/-- The function `patchPod` never fails: `json.Marshal` has no error for its type. -/
theorem patchPod_ok (pod : Pod) : ∃ patchBytes, patchPod pod = .ok patchBytes := by
  unfold patchPod
  cases patchPodOps pod with
  | none => exact ⟨_, rfl⟩
  | some ops => exact ⟨_, rfl⟩

/-- C6, evaluated on the code: for the scenario C pod (selected by the policy, one
container `sidecar`) `mutate` returns an allowed response whose patch bytes are
the JSON text `null`, which is not the empty array `[]`. -/
theorem mutate_scenarioC_patch_null :
    mutationRequired ignoredNamespaces podC.ObjectMeta = true ∧
      (∀ c ∈ podC.Spec.Containers, c.Name ≠ "compute") ∧
      mutate (unmarshalSample podCJson podC) (reviewOf podCJson) =
        some { Allowed := true, Patch := some "null", PatchType := some "JSONPatch" } ∧
      ("null" : String) ≠ "[]" := by
  refine ⟨by decide, by decide, ?_, by decide⟩
  rw [mutate_of_required _ _ _ podC rfl (unmarshalSample_self _ _) (by decide)]
  rfl

/-- C7: when the embedded object decodes to a pod for which the policy evaluator
answers true, `mutate` returns a response with allowed true, no error status, the
patch type `JSONPatch` and the bytes returned by `patchPod` as patch; for the
containers of scenario B the patch is the single operation
`replace /spec/containers/1/image` with the fixed image. -/
theorem mutate_patched (unmarshalPod : Bytes → Except String Pod) (ar : AdmissionReview)
    (req : AdmissionRequest) (pod : Pod) (hreq : ar.Request = some req)
    (hdec : unmarshalPod req.Object.Raw = .ok pod)
    (hmut : mutationRequired ignoredNamespaces pod.ObjectMeta = true) :
    ∃ patchBytes, patchPod pod = .ok patchBytes ∧
      mutate unmarshalPod ar =
        some { UID := "", Allowed := true, Result := none, Patch := some patchBytes,
               PatchType := some "JSONPatch" } ∧
      (pod.Spec.Containers = [⟨"init", "x"⟩, ⟨"compute", "old"⟩] →
        patchBytes = "[\x7b\"op\":\"replace\",\"path\":\"/spec/containers/1/image\",\"value\":\"quay.io/quamotion/android-x86-launcher:latest\"\x7d]") := by
  obtain ⟨patchBytes, hpatch⟩ := patchPod_ok pod
  refine ⟨patchBytes, hpatch, ?_, ?_⟩
  · rw [mutate_of_required unmarshalPod ar req pod hreq hdec hmut, hpatch]
    rfl
  · intro hcs
    have hB : patchPod pod = patchPod podB := by
      simp only [patchPod, patchPodOps, hcs]
      rfl
    rw [hB] at hpatch
    exact (Except.ok.inj hpatch).symm

/-- Witness for C7: scenario B. -/
theorem mutate_patched_witness :
    ∃ patchBytes, patchPod podB = .ok patchBytes ∧
      mutate (unmarshalSample podBJson podB) (reviewOf podBJson) =
        some { UID := "", Allowed := true, Result := none, Patch := some patchBytes,
               PatchType := some "JSONPatch" } ∧
      (podB.Spec.Containers = [⟨"init", "x"⟩, ⟨"compute", "old"⟩] →
        patchBytes = "[\x7b\"op\":\"replace\",\"path\":\"/spec/containers/1/image\",\"value\":\"quay.io/quamotion/android-x86-launcher:latest\"\x7d]") :=
  mutate_patched (unmarshalSample podBJson podB) (reviewOf podBJson)
    { UID := "uid-1"
      Kind := { Group := "", Version := "v1", Kind := "Pod" }
      Namespace := "default"
      Operation := "CREATE"
      Object := { Raw := bytesOf podBJson } }
    podB rfl (unmarshalSample_self _ _) (by decide)

/-- C8: when the embedded object decodes to a pod for which the policy evaluator
answers false, `mutate` returns a response with allowed true and no patch, no patch
type and no error status. -/
theorem mutate_skipped (unmarshalPod : Bytes → Except String Pod) (ar : AdmissionReview)
    (req : AdmissionRequest) (pod : Pod) (hreq : ar.Request = some req)
    (hdec : unmarshalPod req.Object.Raw = .ok pod)
    (hmut : mutationRequired ignoredNamespaces pod.ObjectMeta = false) :
    mutate unmarshalPod ar =
      some { UID := "", Allowed := true, Result := none, Patch := none, PatchType := none } := by
  simp [mutate, hreq, hdec, hmut]

/-- Witness for C8: scenario A, a pod in `kube-system` with no labels. -/
theorem mutate_skipped_witness :
    mutate (unmarshalSample podAJson podA) (reviewOf podAJson) =
      some { UID := "", Allowed := true, Result := none, Patch := none, PatchType := none } :=
  mutate_skipped (unmarshalSample podAJson podA) (reviewOf podAJson)
    { UID := "uid-1"
      Kind := { Group := "", Version := "v1", Kind := "Pod" }
      Namespace := "default"
      Operation := "CREATE"
      Object := { Raw := bytesOf podAJson } }
    podA rfl (unmarshalSample_self _ _) (by decide)

/-- The three shapes of a response returned by `mutate`: an error status alone,
allowed alone, or allowed with a patch of type `JSONPatch`. -/
theorem mutate_shapes (unmarshalPod : Bytes → Except String Pod) (ar : AdmissionReview)
    (resp : AdmissionResponse) (h : mutate unmarshalPod ar = some resp) :
    (∃ err, resp = { Result := some { Message := err } }) ∨
      resp = { Allowed := true } ∨
      ∃ patchBytes, resp =
        { Allowed := true, Patch := some patchBytes, PatchType := some PatchTypeJSONPatch } := by
  unfold mutate at h
  cases hreq : ar.Request with
  | none => rw [hreq] at h; exact Option.noConfusion h
  | some req =>
    rw [hreq] at h
    simp only at h
    cases hdec : unmarshalPod req.Object.Raw with
    | error err =>
      rw [hdec] at h
      exact Or.inl ⟨err, (Option.some.inj h).symm⟩
    | ok pod =>
      rw [hdec] at h
      simp only at h
      cases hmut : mutationRequired ignoredNamespaces pod.ObjectMeta with
      | false =>
        rw [hmut] at h
        exact Or.inr (Or.inl (Option.some.inj h).symm)
      | true =>
        rw [hmut] at h
        obtain ⟨patchBytes, hpatch⟩ := patchPod_ok pod
        rw [hpatch] at h
        exact Or.inr (Or.inr ⟨patchBytes, (Option.some.inj h).symm⟩)

/-- Every response returned by `mutate` satisfies the patch invariant. -/
theorem patchInvariant_of_mutate (unmarshalPod : Bytes → Except String Pod)
    (ar : AdmissionReview) (resp : AdmissionResponse) (h : mutate unmarshalPod ar = some resp) :
    patchInvariant resp := by
  rcases mutate_shapes unmarshalPod ar resp h with ⟨err, rfl⟩ | rfl | ⟨patchBytes, rfl⟩ <;>
    simp [patchInvariant]

/-- The patch invariant does not depend on the UID. -/
theorem patchInvariant_setUID (resp : AdmissionResponse) (uid : String) :
    patchInvariant { resp with UID := uid } ↔ patchInvariant resp := by
  simp [patchInvariant]

/-- Every response that `serveResponse` hands over satisfies the patch invariant. -/
theorem patchInvariant_of_serveResponse (d : Deps) (r : HttpRequest) (body : Bytes)
    (ar : AdmissionReview) (resp : AdmissionResponse)
    (h : serveResponse d r body = some (ar, some resp)) : patchInvariant resp := by
  unfold serveResponse at h
  rcases hd : d.decode body with ⟨ar2, err⟩
  rw [hd] at h
  cases err with
  | some e =>
    simp only [Option.some.injEq, Prod.mk.injEq] at h
    rw [← h.2]
    simp [patchInvariant]
  | none =>
    simp only at h
    split at h
    · cases hm : mutate d.unmarshalPod ar2 with
      | none => rw [hm] at h; exact Option.noConfusion h
      | some resp2 =>
        rw [hm] at h
        simp only [Option.some.injEq, Prod.mk.injEq] at h
        rw [← h.2]
        exact patchInvariant_of_mutate _ _ _ hm
    · simp at h

/-- Every response placed in an envelope by `serveEnvelope` satisfies the patch
invariant when the response it is given does. -/
theorem patchInvariant_of_serveEnvelope (ar : AdmissionReview)
    (admissionResponse : Option AdmissionResponse) (resp : AdmissionResponse)
    (hinv : ∀ r0, admissionResponse = some r0 → patchInvariant r0)
    (h : (serveEnvelope ar admissionResponse).Response = some resp) : patchInvariant resp := by
  unfold serveEnvelope at h
  cases admissionResponse with
  | none => exact Option.noConfusion h
  | some r0 =>
    have h0 := hinv r0 rfl
    cases hreq : ar.Request with
    | none =>
      rw [hreq] at h
      simp only [Option.some.injEq] at h
      rw [← h]; exact h0
    | some req =>
      rw [hreq] at h
      simp only [Option.some.injEq] at h
      rw [← h]
      exact (patchInvariant_setUID r0 req.UID).mpr h0

/-- C9: every admission response returned by `mutate`, and every response placed in
the envelope by `serve`, satisfies the invariant: when allowed is false or an error
status is set there is no patch, and when there is a patch allowed is true. -/
theorem patchInvariant_mutate_serve (d : Deps) (ar : AdmissionReview) (r : HttpRequest) :
    (∀ resp, mutate d.unmarshalPod ar = some resp → patchInvariant resp) ∧
      (∀ t review resp, serve d r = some t → t.admissionReview = some review →
        review.Response = some resp → patchInvariant resp) := by
  refine ⟨fun resp h => patchInvariant_of_mutate _ _ _ h, ?_⟩
  intro t review resp ht hreview hresp
  unfold serve at ht
  simp only at ht
  split at ht
  · simp only [Option.some.injEq] at ht
    rw [← ht] at hreview
    exact Option.noConfusion hreview
  · split at ht
    · simp only [Option.some.injEq] at ht
      rw [← ht] at hreview
      exact Option.noConfusion hreview
    · split at ht
      · exact Option.noConfusion ht
      · rename_i body0 ar0 admissionResponse hsr
        simp only [Option.some.injEq] at ht
        rw [← ht] at hreview
        simp only [Option.some.injEq] at hreview
        rw [← hreview] at hresp
        refine patchInvariant_of_serveEnvelope ar0 admissionResponse resp ?_ hresp
        intro r0 hr0
        rw [hr0] at hsr
        exact patchInvariant_of_serveResponse d r _ ar0 r0 hsr
/-- The response of `mutate` on scenario B. -/
theorem mutate_sample_B :
    mutate (sampleDeps podBJson podB).unmarshalPod (reviewOf podBJson) =
      some { Allowed := true, Patch := some patchB, PatchType := some "JSONPatch" } := by
  show mutate (unmarshalSample podBJson podB) (reviewOf podBJson) = _
  rw [mutate_of_required _ _ _ podB rfl (unmarshalSample_self _ _) (by decide)]
  rfl

/-- The run of `serve` on the mutation endpoint when every library call succeeds:
one write of the marshalled envelope, whose response is that of `mutate` with the
UID of the request. -/
theorem serve_of_mutate (d : Deps) (r : HttpRequest) (body : Bytes) (ar : AdmissionReview)
    (req : AdmissionRequest) (resp : AdmissionResponse) (out : String)
    (hbody : r.Body = some (.ok body)) (hlen : body.length ≠ 0)
    (hct : r.ContentType = "application/json") (hpath : r.Path = "/mutate")
    (hdec : d.decode body = (ar, none)) (hreq : ar.Request = some req)
    (hmut : mutate d.unmarshalPod ar = some resp)
    (hmarshal : d.marshalReview { Response := some { resp with UID := req.UID } } = .ok out)
    (hwrite : d.writeError = none) :
    serve d r = some ⟨[.write (some out)],
      some { Response := some { resp with UID := req.UID } }⟩ := by
  have hsr : serveResponse d r body = some (ar, some resp) := by
    simp only [serveResponse, hdec, hpath, if_true, hmut]
  have henv : serveEnvelope ar (some resp) = { Response := some { resp with UID := req.UID } } := by
    simp only [serveEnvelope, hreq]
  simp only [serve, hbody, hlen, if_false, hct, ne_eq, not_true_eq_false, hsr, henv, hmarshal,
    hwrite, List.nil_append, List.append_nil]

/-- The run of `serve` on scenario B. -/
theorem serve_sample_B :
    serve (sampleDeps podBJson podB) (sampleRequest podBJson) =
      some ⟨[.write (some "envelope")],
        some { Response := some { UID := "uid-1", Allowed := true, Patch := some patchB,
                                  PatchType := some "JSONPatch" } }⟩ :=
  serve_of_mutate (sampleDeps podBJson podB) (sampleRequest podBJson)
    (bytesOf (reviewJson podBJson)) (reviewOf podBJson)
    { UID := "uid-1"
      Kind := { Group := "", Version := "v1", Kind := "Pod" }
      Namespace := "default"
      Operation := "CREATE"
      Object := { Raw := bytesOf podBJson } }
    { Allowed := true, Patch := some patchB, PatchType := some "JSONPatch" } "envelope"
    rfl (fun h => absurd (List.length_eq_zero.mp h).symm (by decide)) rfl rfl
    (by simp only [sampleDeps, if_true]) rfl mutate_sample_B rfl rfl

/-- Witness for C9: the patched response of scenario B, as `mutate` returns it and
as `serve` places it in the envelope. -/
theorem patchInvariant_mutate_serve_witness :
    patchInvariant { Allowed := true, Patch := some patchB, PatchType := some "JSONPatch" } ∧
      patchInvariant { UID := "uid-1", Allowed := true, Patch := some patchB,
                       PatchType := some "JSONPatch" } :=
  ⟨(patchInvariant_mutate_serve (sampleDeps podBJson podB) (reviewOf podBJson)
      (sampleRequest podBJson)).1
      _ mutate_sample_B,
   (patchInvariant_mutate_serve (sampleDeps podBJson podB) (reviewOf podBJson)
      (sampleRequest podBJson)).2
      _ _ _ serve_sample_B rfl rfl⟩

/-- C10 as stated fails: for a request that embeds no object bytes the pod parse
fails and `mutate` returns a response with allowed false and the parse error as
status message; so not every response of `mutate` is allowed. -/
theorem mutate_not_always_allowed :
    mutate (unmarshalSample podBJson podB) reviewNoObject =
        some { UID := "", Allowed := false,
               Result := some { Message := "unexpected end of JSON input" },
               Patch := none, PatchType := none } ∧
      ¬ (∀ (unmarshalPod : Bytes → Except String Pod) (ar : AdmissionReview)
          (resp : AdmissionResponse), mutate unmarshalPod ar = some resp → resp.Allowed = true) := by
  have hdec : unmarshalSample podBJson podB [] = .error "unexpected end of JSON input" := by
    have hne : ¬ (([] : Bytes) = bytesOf podBJson) := by decide
    simp only [unmarshalSample, hne, if_false, if_true]
  have heval : mutate (unmarshalSample podBJson podB) reviewNoObject =
      some { UID := "", Allowed := false,
             Result := some { Message := "unexpected end of JSON input" },
             Patch := none, PatchType := none } := by
    simp only [mutate, reviewNoObject, hdec]
  refine ⟨heval, fun hall => ?_⟩
  have hallowed := hall _ _ _ heval
  exact Bool.noConfusion hallowed

/-- C10, amended: for a review with a request, `mutate` returns a response; when
the embedded object parses as a pod the response has allowed true, and when the
parse fails the response has allowed false and carries the parse error message. -/
theorem mutate_allowed_of_decoded (unmarshalPod : Bytes → Except String Pod)
    (ar : AdmissionReview) (req : AdmissionRequest) (hreq : ar.Request = some req) :
    ∃ resp, mutate unmarshalPod ar = some resp ∧
      (∀ pod, unmarshalPod req.Object.Raw = .ok pod → resp.Allowed = true) ∧
      (∀ err, unmarshalPod req.Object.Raw = .error err →
        resp.Allowed = false ∧ resp.Result = some { Message := err }) := by
  cases hdec : unmarshalPod req.Object.Raw with
  | error err =>
    refine ⟨{ Result := some { Message := err } }, ?_, ?_, ?_⟩
    · simp only [mutate, hreq, hdec]
    · intro pod hp
      exact Except.noConfusion hp
    · intro err2 he
      have : err = err2 := Except.error.inj he
      subst this
      exact ⟨rfl, rfl⟩
  | ok pod =>
    cases hmut : mutationRequired ignoredNamespaces pod.ObjectMeta with
    | false =>
      refine ⟨{ Allowed := true }, ?_, fun _ _ => rfl, ?_⟩
      · simp [mutate, hreq, hdec, hmut]
      · intro err he
        exact Except.noConfusion he
    | true =>
      obtain ⟨patchBytes, hpatch⟩ := patchPod_ok pod
      refine ⟨{ Allowed := true, Patch := some patchBytes, PatchType := some PatchTypeJSONPatch },
        ?_, fun _ _ => rfl, ?_⟩
      · rw [mutate_of_required unmarshalPod ar req pod hreq hdec hmut, hpatch]
      · intro err he
        exact Except.noConfusion he

/-- Witness for the amended C10: the review of scenario C is answered with an
allowed response. -/
theorem mutate_allowed_of_decoded_witness :
    ∃ resp, mutate (unmarshalSample podCJson podC) (reviewOf podCJson) = some resp ∧
      resp.Allowed = true :=
  match mutate_allowed_of_decoded (unmarshalSample podCJson podC) (reviewOf podCJson)
    { UID := "uid-1"
      Kind := { Group := "", Version := "v1", Kind := "Pod" }
      Namespace := "default"
      Operation := "CREATE"
      Object := { Raw := bytesOf podCJson } }
    rfl with
  | ⟨resp, h, hok, _⟩ => ⟨resp, h, hok podC (unmarshalSample_self _ _)⟩

/-! ## Transport layer: proofs -/

/-- The run of `serve` once the body is read and the content type accepted: the
envelope of lines 218-224 is marshalled and written, and the status is 200 when
marshalling succeeds. -/
theorem serve_of_serveResponse (d : Deps) (r : HttpRequest) (body : Bytes)
    (ar : AdmissionReview) (admissionResponse : Option AdmissionResponse)
    (hbody : r.Body = some (.ok body)) (hne : body ≠ [])
    (hct : r.ContentType = "application/json")
    (hsr : serveResponse d r body = some (ar, admissionResponse)) :
    ∃ calls, serve d r = some ⟨calls, some (serveEnvelope ar admissionResponse)⟩ ∧
      WriterCall.write (d.marshalReview (serveEnvelope ar admissionResponse)).toOption ∈ calls ∧
      (∀ out, d.marshalReview (serveEnvelope ar admissionResponse) = .ok out →
        calls.head? = some (.write (some out)) ∧
        (ServeTrace.mk calls (some (serveEnvelope ar admissionResponse))).status = 200) := by
  have hlen : ¬ (body.length = 0) := fun h => hne (List.length_eq_zero.mp h)
  cases hm : d.marshalReview (serveEnvelope ar admissionResponse) with
  | ok out =>
    refine ⟨[.write (some out)] ++ (match d.writeError with
      | none => []
      | some err =>
        [.httpError ("could not write response: " ++ err) StatusInternalServerError]), ?_, ?_, ?_⟩
    · simp only [serve, hbody, hlen, if_false, hct, ne_eq, not_true_eq_false, hsr, hm,
        List.nil_append]
    · simp [Except.toOption]
    · intro out2 h2
      have : out = out2 := Except.ok.inj h2
      subst this
      exact ⟨rfl, rfl⟩
  | error e =>
    refine ⟨[.httpError ("could not encode response: " ++ e) StatusInternalServerError] ++
      [.write none] ++ (match d.writeError with
      | none => []
      | some err =>
        [.httpError ("could not write response: " ++ err) StatusInternalServerError]), ?_, ?_, ?_⟩
    · simp only [serve, hbody, hlen, if_false, hct, ne_eq, not_true_eq_false, hsr, hm]
    · simp [Except.toOption]
    · intro out2 h2
      exact Except.noConfusion h2

/-- With a request present `mutate` returns a response. -/
theorem mutate_some_of_request (unmarshalPod : Bytes → Except String Pod)
    (ar : AdmissionReview) (req : AdmissionRequest) (hreq : ar.Request = some req) :
    ∃ resp, mutate unmarshalPod ar = some resp := by
  cases hdec : unmarshalPod req.Object.Raw with
  | error err =>
    exact ⟨{ Result := some { Message := err } }, by simp only [mutate, hreq, hdec]⟩
  | ok pod =>
    cases hmut : mutationRequired ignoredNamespaces pod.ObjectMeta with
    | false => exact ⟨{ Allowed := true }, by simp [mutate, hreq, hdec, hmut]⟩
    | true =>
      obtain ⟨patchBytes, hpatch⟩ := patchPod_ok pod
      exact ⟨{ Allowed := true, Patch := some patchBytes, PatchType := some PatchTypeJSONPatch },
        by rw [mutate_of_required unmarshalPod ar req pod hreq hdec hmut, hpatch]⟩

/-- C11: when the envelope decodes with a request and the path is `/mutate`, the
response placed in the outgoing envelope carries the UID of the request: it is
the response of `mutate` with that UID, whatever the outcome of `mutate` is. -/
theorem serve_echoes_uid (d : Deps) (r : HttpRequest) (body : Bytes) (ar : AdmissionReview)
    (req : AdmissionRequest)
    (hbody : r.Body = some (.ok body)) (hne : body ≠ [])
    (hct : r.ContentType = "application/json") (hpath : r.Path = "/mutate")
    (hdec : d.decode body = (ar, none)) (hreq : ar.Request = some req) :
    ∃ calls resp, serve d r = some ⟨calls, some { Request := none, Response := some resp }⟩ ∧
      resp.UID = req.UID ∧
      ∃ resp0, mutate d.unmarshalPod ar = some resp0 ∧ resp = { resp0 with UID := req.UID } := by
  obtain ⟨resp0, hm⟩ := mutate_some_of_request d.unmarshalPod ar req hreq
  have hsr : serveResponse d r body = some (ar, some resp0) := by
    simp only [serveResponse, hdec, hpath, if_true, hm]
  obtain ⟨calls, hserve, _, _⟩ := serve_of_serveResponse d r body ar (some resp0) hbody hne hct hsr
  refine ⟨calls, { resp0 with UID := req.UID }, ?_, rfl, resp0, hm, rfl⟩
  rw [hserve]
  simp only [serveEnvelope, hreq]

/-- Witness for C11: the review of scenario A, which `mutate` skips. -/
theorem serve_echoes_uid_witness :
    ∃ calls resp, serve (sampleDeps podAJson podA) (sampleRequest podAJson) =
        some ⟨calls, some { Request := none, Response := some resp }⟩ ∧
      resp.UID = "uid-1" ∧
      ∃ resp0, mutate (sampleDeps podAJson podA).unmarshalPod (reviewOf podAJson) = some resp0 ∧
        resp = { resp0 with UID := "uid-1" } :=
  serve_echoes_uid (sampleDeps podAJson podA) (sampleRequest podAJson)
    (bytesOf (reviewJson podAJson)) (reviewOf podAJson)
    { UID := "uid-1"
      Kind := { Group := "", Version := "v1", Kind := "Pod" }
      Namespace := "default"
      Operation := "CREATE"
      Object := { Raw := bytesOf podAJson } }
    rfl (fun h => absurd h.symm (by decide)) rfl rfl
    (by simp only [sampleDeps, if_true]) rfl

/-- C12: when the body is nil, unreadable or empty, `serve` answers 400 whatever
the content type is; when the body is not empty and the content type is not
exactly `application/json`, it answers 415. In both cases the only call on the
writer is `http.Error`, no envelope is built, and the run is the same for all
library calls: nothing is decoded and `mutate` is not called. -/
theorem serve_transport_errors (d : Deps) (r : HttpRequest) :
    ((r.Body = none ∨ (∃ e, r.Body = some (.error e)) ∨ r.Body = some (.ok [])) →
      ∃ t, serve d r = some t ∧ t.status = 400 ∧
        t.calls = [.httpError "empty body" 400] ∧ t.admissionReview = none ∧
        ∀ d2 : Deps, serve d2 r = some t) ∧
    (∀ data, r.Body = some (.ok data) → data ≠ [] → r.ContentType ≠ "application/json" →
      ∃ t, serve d r = some t ∧ t.status = 415 ∧
        t.calls = [.httpError "invalid Content-Type, expect `application/json`" 415] ∧
        t.admissionReview = none ∧
        ∀ d2 : Deps, serve d2 r = some t) := by
  constructor
  · intro h
    have hrun : ∀ d2 : Deps, serve d2 r =
        some ⟨[.httpError "empty body" StatusBadRequest], none⟩ := by
      intro d2
      rcases h with h | ⟨e, h⟩ | h <;> simp [serve, h]
    exact ⟨_, hrun d, rfl, rfl, rfl, hrun⟩
  · intro data hbody hne hct
    have hlen : ¬ (data.length = 0) := fun h => hne (List.length_eq_zero.mp h)
    have hrun : ∀ d2 : Deps, serve d2 r =
        some ⟨[.httpError "invalid Content-Type, expect `application/json`"
          StatusUnsupportedMediaType], none⟩ := by
      intro d2
      simp only [serve, hbody, hlen, if_false, hct, ne_eq, not_false_eq_true, if_true]
    exact ⟨_, hrun d, rfl, rfl, rfl, hrun⟩

/-- Witness for C12: an empty body sent as JSON (scenario E), and the review of
scenario B sent as `text/plain`. -/
theorem serve_transport_errors_witness :
    (∃ t, serve (sampleDeps podBJson podB)
          { Body := some (.ok []), ContentType := "application/json", Path := "/mutate" } = some t ∧
        t.status = 400 ∧ t.calls = [.httpError "empty body" 400] ∧ t.admissionReview = none ∧
        ∀ d2 : Deps, serve d2
          { Body := some (.ok []), ContentType := "application/json", Path := "/mutate" } = some t) ∧
    (∃ t, serve (sampleDeps podBJson podB)
          { Body := some (.ok (bytesOf (reviewJson podBJson))), ContentType := "text/plain",
            Path := "/mutate" } = some t ∧
        t.status = 415 ∧
        t.calls = [.httpError "invalid Content-Type, expect `application/json`" 415] ∧
        t.admissionReview = none ∧
        ∀ d2 : Deps, serve d2
          { Body := some (.ok (bytesOf (reviewJson podBJson))), ContentType := "text/plain",
            Path := "/mutate" } = some t) :=
  ⟨(serve_transport_errors (sampleDeps podBJson podB)
      { Body := some (.ok []), ContentType := "application/json", Path := "/mutate" }).1
      (Or.inr (Or.inr rfl)),
   (serve_transport_errors (sampleDeps podBJson podB)
      { Body := some (.ok (bytesOf (reviewJson podBJson))), ContentType := "text/plain",
        Path := "/mutate" }).2
      (bytesOf (reviewJson podBJson)) rfl (fun h => absurd h.symm (by decide)) (by decide)⟩

/-- C13 as stated fails: for a body whose request member decodes before the
decoder fails on a later member, `ar.Request` is set when line 221 is reached,
and the error response carries the UID of that request instead of an unset UID. -/
theorem serve_decode_error_uid_set :
    serve (depsFor brokenResponseJson { Request := some { UID := "uid-1" } }
          (some "json: cannot unmarshal string into Go struct field AdmissionReview.response"))
        (requestOf brokenResponseJson "/mutate") =
      some ⟨[.write (some "envelope")],
        some { Request := none
               Response := some
                 { UID := "uid-1", Allowed := false,
                   Result := some { Message :=
                     "json: cannot unmarshal string into Go struct field AdmissionReview.response" },
                   Patch := none, PatchType := none } }⟩ ∧
      ("uid-1" : String) ≠ "" := by
  refine ⟨?_, by decide⟩
  have hne : ¬ ((bytesOf brokenResponseJson).length = 0) :=
    fun h => absurd (List.length_eq_zero.mp h).symm (by decide)
  simp only [serve, requestOf, hne, if_false, ne_eq, not_true_eq_false, serveResponse, depsFor,
    decodeSample, if_true, serveEnvelope, List.nil_append, List.append_nil]

/-- C13, amended: when the body is not empty, the content type is accepted and the
envelope decoder fails, `serve` builds an envelope whose response has allowed
false, the decode error as status message, no patch and no patch type; its UID is
unset when the failed decode left `ar.Request` nil and is the UID of that request
otherwise. The status is 200 when the envelope is marshalled, and `mutate` is not
called: a request left nil does no harm and the pod decoder plays no part. -/
theorem serve_decode_error (d : Deps) (r : HttpRequest) (body : Bytes) (ar : AdmissionReview)
    (err : String)
    (hbody : r.Body = some (.ok body)) (hne : body ≠ [])
    (hct : r.ContentType = "application/json")
    (hdec : d.decode body = (ar, some err)) :
    ∃ calls resp, serve d r = some ⟨calls, some { Request := none, Response := some resp }⟩ ∧
      resp = { UID := (match ar.Request with
                       | some req => req.UID
                       | none => "")
               Allowed := false
               Result := some { Message := err }
               Patch := none
               PatchType := none } ∧
      (ar.Request = none → resp.UID = "") ∧
      (∀ out, d.marshalReview { Request := none, Response := some resp } = .ok out →
        calls.head? = some (.write (some out)) ∧
        (ServeTrace.mk calls (some { Request := none, Response := some resp })).status = 200) ∧
      (∀ unmarshalPod : Bytes → Except String Pod,
        serve { d with unmarshalPod := unmarshalPod } r = serve d r) := by
  have hsr : ∀ d2 : Deps, d2.decode = d.decode → serveResponse d2 r body =
      some (ar, some { Result := some { Message := err } }) := by
    intro d2 h2
    simp only [serveResponse, h2, hdec]
  have henv : serveEnvelope ar (some { Result := some { Message := err } }) =
      { Request := none
        Response := some
          { UID := (match ar.Request with
                    | some req => req.UID
                    | none => "")
            Allowed := false
            Result := some { Message := err }
            Patch := none
            PatchType := none } } := by
    cases hreq : ar.Request <;> simp only [serveEnvelope, hreq]
  obtain ⟨calls, hserve, _, hstatus⟩ :=
    serve_of_serveResponse d r body ar _ hbody hne hct (hsr d rfl)
  rw [henv] at hserve hstatus
  refine ⟨calls, _, hserve, rfl, ?_, hstatus, ?_⟩
  · intro hnone
    simp only [hnone]
  · intro u
    have hlen : ¬ (body.length = 0) := fun h => hne (List.length_eq_zero.mp h)
    simp only [serve, hbody, hlen, if_false, hct, ne_eq, not_true_eq_false,
      hsr { d with unmarshalPod := u } rfl, hsr d rfl]

/-- Witness for the amended C13: a body that is not JSON (scenario D); the decoder
rejects it before writing `ar`, so the UID is unset, and the status is 200. -/
theorem serve_decode_error_witness :
    ∃ calls resp,
      serve (depsFor malformedJson {}
          (some "couldn't get version/kind; json parse error: unexpected end of JSON input"))
        (requestOf malformedJson "/mutate") =
        some ⟨calls, some { Request := none, Response := some resp }⟩ ∧
      resp = { UID := "", Allowed := false,
               Result := some { Message :=
                 "couldn't get version/kind; json parse error: unexpected end of JSON input" },
               Patch := none, PatchType := none } ∧
      (ServeTrace.mk calls (some { Request := none, Response := some resp })).status = 200 :=
  match serve_decode_error
      (depsFor malformedJson {}
        (some "couldn't get version/kind; json parse error: unexpected end of JSON input"))
      (requestOf malformedJson "/mutate") (bytesOf malformedJson) {}
      "couldn't get version/kind; json parse error: unexpected end of JSON input"
      rfl (fun h => absurd h.symm (by decide)) rfl
      (by simp only [depsFor, decodeSample, if_true]) with
  | ⟨calls, resp, hserve, hresp, _, hstatus, _⟩ =>
    ⟨calls, resp, hserve, hresp, (hstatus "envelope" rfl).2⟩

/-! ## Remaining properties of `mutate` and `patchPod` -/

/-- C14: when the raw embedded object fails to parse as a pod, `mutate` returns a
response whose status message is the parse error, with allowed false, no patch and
no patch type; the response is fixed by the error alone, so neither the policy
evaluator nor the patch builder has a say. -/
theorem mutate_pod_parse_error (unmarshalPod : Bytes → Except String Pod)
    (ar : AdmissionReview) (req : AdmissionRequest) (err : String)
    (hreq : ar.Request = some req) (hdec : unmarshalPod req.Object.Raw = .error err) :
    mutate unmarshalPod ar =
      some { UID := "", Allowed := false, Result := some { Message := err },
             Patch := none, PatchType := none } := by
  simp only [mutate, hreq, hdec]

/-- Witness for C14: a request that embeds no object bytes, as sent for a deletion. -/
theorem mutate_pod_parse_error_witness :
    mutate (unmarshalSample podAJson podA)
        { Request := some { UID := "uid-2", Operation := "DELETE", Name := "a" } } =
      some { UID := "", Allowed := false,
             Result := some { Message := "unexpected end of JSON input" },
             Patch := none, PatchType := none } :=
  mutate_pod_parse_error (unmarshalSample podAJson podA)
    { Request := some { UID := "uid-2", Operation := "DELETE", Name := "a" } }
    { UID := "uid-2", Operation := "DELETE", Name := "a" }
    "unexpected end of JSON input" rfl
    (by
      have hne : ¬ (([] : Bytes) = bytesOf podAJson) := by decide
      simp only [unmarshalSample, hne, if_false, if_true])

/-- A list with a container named `compute` splits around the last such container. -/
theorem exists_last_compute (cs : List Container) (h : ∃ c ∈ cs, c.Name = "compute") :
    ∃ pre c post, cs = pre ++ c :: post ∧ c.Name = "compute" ∧
      ∀ d ∈ post, d.Name ≠ "compute" := by
  induction cs with
  | nil =>
    obtain ⟨c, hc, _⟩ := h
    exact absurd hc (List.not_mem_nil c)
  | cons a rest ih =>
    by_cases hrest : ∃ c ∈ rest, c.Name = "compute"
    · obtain ⟨pre, c, post, hsplit, hc, hpost⟩ := ih hrest
      exact ⟨a :: pre, c, post, by rw [hsplit]; rfl, hc, hpost⟩
    · have ha : a.Name = "compute" := by
        obtain ⟨c, hc, hn⟩ := h
        rcases List.mem_cons.mp hc with hca | hcr
        · rw [← hca]; exact hn
        · exact absurd ⟨c, hcr, hn⟩ hrest
      exact ⟨[], a, rest, rfl, ha, fun d hd hdn => hrest ⟨d, hd, hdn⟩⟩

/-- Names read by position in a list split around one element. -/
theorem getElem?_split (pre post : List Container) (c : Container) :
    (pre ++ c :: post)[pre.length]? = some c ∧
      ∀ j, pre.length < j → (pre ++ c :: post)[j]? = post[j - pre.length - 1]? := by
  constructor
  · rw [List.getElem?_append_right (Nat.le_refl _), Nat.sub_self, List.getElem?_cons_zero]
  · intro j hj
    rw [List.getElem?_append_right (Nat.le_of_lt hj)]
    obtain ⟨m, hm⟩ : ∃ m, j - pre.length = m + 1 := ⟨j - pre.length - 1, by omega⟩
    rw [hm, List.getElem?_cons_succ]
    congr 1

/-- The patch has an operation exactly when a container is named `compute`. -/
theorem goLen_patchPodOps_pos_iff (pod : Pod) :
    0 < goLen (patchPodOps pod) ↔ ∃ c ∈ pod.Spec.Containers, c.Name = "compute" := by
  constructor
  · intro hpos
    by_contra hno
    have hnone : ∀ c ∈ pod.Spec.Containers, c.Name ≠ "compute" :=
      fun c hc hn => hno ⟨c, hc, hn⟩
    have hscan := scanContainers_of_no_compute pod.Spec.Containers 0 (-1) hnone
    have hops : patchPodOps pod = none := by
      simp only [patchPodOps, hscan, if_true]
    rw [hops] at hpos
    exact absurd hpos (by decide)
  · intro h
    obtain ⟨pre, c, post, hsplit, hc, hpost⟩ := exists_last_compute pod.Spec.Containers h
    have hscan : scanContainers pod.Spec.Containers 0 (-1) = ((pre.length : Nat) : Int) := by
      rw [hsplit, scanContainers_last pre post c 0 (-1) hc hpost, Nat.zero_add]
    rw [patchPodOps_of_scan pod pre.length hscan]
    exact Nat.zero_lt_one

/-- C15 as stated fails: for the scenario C pod the patch builder produces no
operation and no container is named `compute`, yet the response of `mutate`
carries a patch field that is set and not empty. -/
theorem mutate_patch_without_operation :
    mutate (unmarshalSample podCJson podC) (reviewOf podCJson) =
        some { UID := "", Allowed := true, Result := none, Patch := some "null",
               PatchType := some "JSONPatch" } ∧
      ("null" : String) ≠ "" ∧
      goLen (patchPodOps podC) = 0 ∧
      ¬ ∃ c ∈ podC.Spec.Containers, c.Name = "compute" := by
  refine ⟨?_, by decide, by decide, by decide⟩
  rw [mutate_of_required _ _ _ podC rfl (unmarshalSample_self _ _) (by decide)]
  rfl

/-- C15, amended: the response of `mutate` carries a patch exactly when the
embedded object parses as a pod that the policy evaluator selects; the patch
builder produces an operation exactly when the pod has a container named
`compute`. -/
theorem mutate_patch_iff_required (unmarshalPod : Bytes → Except String Pod)
    (ar : AdmissionReview) (req : AdmissionRequest) (hreq : ar.Request = some req) :
    ∃ resp, mutate unmarshalPod ar = some resp ∧
      (resp.Patch ≠ none ↔
        ∃ pod, unmarshalPod req.Object.Raw = .ok pod ∧
          mutationRequired ignoredNamespaces pod.ObjectMeta = true) ∧
      (∀ pod, unmarshalPod req.Object.Raw = .ok pod →
        (0 < goLen (patchPodOps pod) ↔ ∃ c ∈ pod.Spec.Containers, c.Name = "compute")) := by
  have hops : ∀ pod, unmarshalPod req.Object.Raw = .ok pod →
      (0 < goLen (patchPodOps pod) ↔ ∃ c ∈ pod.Spec.Containers, c.Name = "compute") :=
    fun pod _ => goLen_patchPodOps_pos_iff pod
  cases hdec : unmarshalPod req.Object.Raw with
  | error err =>
    refine ⟨{ Result := some { Message := err } }, by simp only [mutate, hreq, hdec], ?_, ?_⟩
    · constructor
      · intro h; exact absurd rfl h
      · rintro ⟨pod, hp, _⟩; exact Except.noConfusion hp
    · intro pod hp; exact Except.noConfusion hp
  | ok pod =>
    rw [hdec] at hops
    cases hmut : mutationRequired ignoredNamespaces pod.ObjectMeta with
    | false =>
      refine ⟨{ Allowed := true }, by simp [mutate, hreq, hdec, hmut], ?_, hops⟩
      constructor
      · intro h; exact absurd rfl h
      · rintro ⟨pod2, hp, hm⟩
        have hsame : pod = pod2 := Except.ok.inj hp
        subst hsame
        rw [hmut] at hm
        exact Bool.noConfusion hm
    | true =>
      obtain ⟨patchBytes, hpatch⟩ := patchPod_ok pod
      refine ⟨{ Allowed := true, Patch := some patchBytes, PatchType := some PatchTypeJSONPatch },
        by rw [mutate_of_required unmarshalPod ar req pod hreq hdec hmut, hpatch], ?_, hops⟩
      constructor
      · intro _; exact ⟨pod, rfl, hmut⟩
      · intro _ h; exact Option.noConfusion h

/-- Witness for the amended C15: the review of scenario B carries a patch. -/
theorem mutate_patch_iff_required_witness :
    ∃ resp, mutate (unmarshalSample podBJson podB) (reviewOf podBJson) = some resp ∧
      resp.Patch ≠ none ∧ 0 < goLen (patchPodOps podB) :=
  match mutate_patch_iff_required (unmarshalSample podBJson podB) (reviewOf podBJson)
    { UID := "uid-1"
      Kind := { Group := "", Version := "v1", Kind := "Pod" }
      Namespace := "default"
      Operation := "CREATE"
      Object := { Raw := bytesOf podBJson } }
    rfl with
  | ⟨resp, h, hpatch, hops⟩ =>
    ⟨resp, h, hpatch.mpr ⟨podB, unmarshalSample_self _ _, by decide⟩,
      (hops podB (unmarshalSample_self _ _)).mpr ⟨⟨"compute", "old"⟩, by decide, rfl⟩⟩

/-- C16: when at least one container is named exactly `compute`, `patchPod`
returns exactly one operation, and the index in its path is the greatest position
of a container with that name; a container named `Compute` is never the one
addressed. -/
theorem patchPod_last_compute (pod : Pod)
    (h : ∃ c ∈ pod.Spec.Containers, c.Name = "compute") :
    ∃ k : Nat, (pod.Spec.Containers[k]?).map Container.Name = some "compute" ∧
      (∀ j, (pod.Spec.Containers[j]?).map Container.Name = some "compute" → j ≤ k) ∧
      (∀ (j : Nat) (c : Container), pod.Spec.Containers[j]? = some c →
        c.Name = "Compute" → j ≠ k) ∧
      patchPodOps pod = some [⟨"replace", "/spec/containers/" ++ toString k ++ "/image",
        some "quay.io/quamotion/android-x86-launcher:latest"⟩] ∧
      patchPod pod = .ok ("[\x7b\"op\":\"replace\",\"path\":\"/spec/containers/" ++ toString k ++
        "/image\",\"value\":\"quay.io/quamotion/android-x86-launcher:latest\"\x7d]") := by
  obtain ⟨pre, c, post, hsplit, hc, hpost⟩ := exists_last_compute pod.Spec.Containers h
  obtain ⟨hat, hafter⟩ := getElem?_split pre post c
  have hk : (pod.Spec.Containers[pre.length]?).map Container.Name = some "compute" := by
    rw [hsplit, hat]
    simp [hc]
  have hlast : ∀ j, pre.length < j →
      (pod.Spec.Containers[j]?).map Container.Name ≠ some "compute" := by
    intro j hj hname
    rw [hsplit, hafter j hj] at hname
    cases hd : post[j - pre.length - 1]? with
    | none => rw [hd] at hname; exact Option.noConfusion hname
    | some d =>
      rw [hd] at hname
      exact hpost d (List.getElem?_mem hd) (Option.some.inj hname)
  have hscan := scanContainers_at pod.Spec.Containers pre.length hk hlast
  have hops := patchPodOps_of_scan pod pre.length hscan
  refine ⟨pre.length, hk, ?_, ?_, hops, ?_⟩
  · intro j hj
    by_contra hlt
    exact hlast j (Nat.lt_of_not_le hlt) hj
  · intro j d hd hname hjk
    rw [hjk, hsplit, hat] at hd
    have hcd : c = d := Option.some.inj hd
    rw [← hcd, hc] at hname
    exact absurd hname (by decide)
  · rw [patchPod, hops]
    exact jsonMarshalPatch_single pre.length

/-- Witness for C16: `compute` at positions 0 and 2, `Compute` at position 3; the
operation addresses position 2. -/
theorem patchPod_last_compute_witness :
    (∃ k : Nat, (([⟨"compute", "a"⟩, ⟨"init", "b"⟩, ⟨"compute", "c"⟩, ⟨"Compute", "d"⟩] :
          List Container)[k]?).map Container.Name = some "compute" ∧
      patchPod { Spec := { Containers :=
          [⟨"compute", "a"⟩, ⟨"init", "b"⟩, ⟨"compute", "c"⟩, ⟨"Compute", "d"⟩] } } =
        .ok ("[\x7b\"op\":\"replace\",\"path\":\"/spec/containers/" ++ toString k ++
          "/image\",\"value\":\"quay.io/quamotion/android-x86-launcher:latest\"\x7d]")) ∧
      patchPod { Spec := { Containers :=
          [⟨"compute", "a"⟩, ⟨"init", "b"⟩, ⟨"compute", "c"⟩, ⟨"Compute", "d"⟩] } } =
        .ok "[\x7b\"op\":\"replace\",\"path\":\"/spec/containers/2/image\",\"value\":\"quay.io/quamotion/android-x86-launcher:latest\"\x7d]" :=
  ⟨match patchPod_last_compute
      { Spec := { Containers :=
          [⟨"compute", "a"⟩, ⟨"init", "b"⟩, ⟨"compute", "c"⟩, ⟨"Compute", "d"⟩] } }
      ⟨⟨"compute", "a"⟩, by decide, rfl⟩ with
    | ⟨k, hk, _, _, _, hpatch⟩ => ⟨k, hk, hpatch⟩,
   rfl⟩

/-- C17: when the body is not empty, the content type is accepted, the envelope
decodes and the path is not exactly `/mutate`, `serve` writes the marshalled
envelope with a nil response, so no UID, allowed flag, patch or error message;
`mutate` is not called: a review without request does no harm and the pod decoder
plays no part. -/
theorem serve_other_path (d : Deps) (r : HttpRequest) (body : Bytes) (ar : AdmissionReview)
    (hbody : r.Body = some (.ok body)) (hne : body ≠ [])
    (hct : r.ContentType = "application/json")
    (hdec : d.decode body = (ar, none)) (hpath : r.Path ≠ "/mutate") :
    ∃ calls, serve d r = some ⟨calls, some { Request := none, Response := none }⟩ ∧
      WriterCall.write (d.marshalReview { Request := none, Response := none }).toOption ∈ calls ∧
      (∀ unmarshalPod : Bytes → Except String Pod,
        serve { d with unmarshalPod := unmarshalPod } r = serve d r) := by
  have hsr : ∀ d2 : Deps, d2.decode = d.decode → serveResponse d2 r body = some (ar, none) := by
    intro d2 h2
    simp only [serveResponse, h2, hdec, hpath, if_false]
  obtain ⟨calls, hserve, hwrite, _⟩ :=
    serve_of_serveResponse d r body ar none hbody hne hct (hsr d rfl)
  refine ⟨calls, hserve, hwrite, ?_⟩
  intro u
  have hlen : ¬ (body.length = 0) := fun h => hne (List.length_eq_zero.mp h)
  simp only [serve, hbody, hlen, if_false, hct, ne_eq, not_true_eq_false,
    hsr { d with unmarshalPod := u } rfl, hsr d rfl]

/-- Witness for C17: the review of scenario B posted to `/healthz`. -/
theorem serve_other_path_witness :
    ∃ calls, serve (depsFor (reviewJson podBJson) (reviewOf podBJson) none)
        (requestOf (reviewJson podBJson) "/healthz") =
        some ⟨calls, some { Request := none, Response := none }⟩ ∧
      WriterCall.write (some "envelope") ∈ calls ∧
      (∀ unmarshalPod : Bytes → Except String Pod,
        serve { depsFor (reviewJson podBJson) (reviewOf podBJson) none with
                unmarshalPod := unmarshalPod }
          (requestOf (reviewJson podBJson) "/healthz") =
        serve (depsFor (reviewJson podBJson) (reviewOf podBJson) none)
          (requestOf (reviewJson podBJson) "/healthz")) :=
  serve_other_path (depsFor (reviewJson podBJson) (reviewOf podBJson) none)
    (requestOf (reviewJson podBJson) "/healthz") (bytesOf (reviewJson podBJson))
    (reviewOf podBJson) rfl (fun h => absurd h.symm (by decide)) rfl
    (by simp only [depsFor, decodeSample, if_true]) (by decide)

/-- C18, evaluated on the code: an envelope without a request member is accepted
by the decoder with `ar.Request` nil; `mutate` then dereferences the nil pointer on
line 138 and returns no response, and neither does `serve`. -/
theorem mutate_nil_request_panics :
    mutate (unmarshalSample podBJson podB) { Request := none, Response := none } = none ∧
      serve (depsFor noRequestJson { Request := none, Response := none } none)
        (requestOf noRequestJson "/mutate") = none := by
  refine ⟨rfl, ?_⟩
  have hne : ¬ ((bytesOf noRequestJson).length = 0) :=
    fun h => absurd (List.length_eq_zero.mp h).symm (by decide)
  simp only [serve, requestOf, hne, if_false, ne_eq, not_true_eq_false, serveResponse, depsFor,
    decodeSample, if_true, mutate]

/-- The loop of `patchPod` reads only the names of the containers. -/
theorem scanContainers_congr (cs1 cs2 : List Container) (i : Nat) (computeIndex : Int)
    (h : cs1.map Container.Name = cs2.map Container.Name) :
    scanContainers cs1 i computeIndex = scanContainers cs2 i computeIndex := by
  induction cs1 generalizing cs2 i computeIndex with
  | nil =>
    cases cs2 with
    | nil => rfl
    | cons b bs => exact List.noConfusion h
  | cons a as ih =>
    cases cs2 with
    | nil => exact List.noConfusion h
    | cons b bs =>
      simp only [List.map_cons, List.cons.injEq] at h
      simp only [scanContainers, h.1]
      exact ih bs (i + 1) _ h.2

/-- Replacing an image keeps the names of the containers. -/
theorem map_name_replaceImageAt (cs : List Container) (k : Nat) (image : String) :
    (replaceImageAt cs k image).map Container.Name = cs.map Container.Name := by
  induction cs generalizing k with
  | nil => rfl
  | cons c rest ih =>
    cases k with
    | zero => rfl
    | succ k => simp only [replaceImageAt, List.map_cons, ih k]

/-- C19: the result of `patchPod` depends only on the sequence of container names:
a pod whose containers have the same names in the same order gets the same patch,
whatever the images and other fields are; so after the image at any position is
replaced, by the fixed image or another, `patchPod` returns the same patch. -/
theorem patchPod_names_only (pod : Pod) :
    (∀ pod2 : Pod,
      pod2.Spec.Containers.map Container.Name = pod.Spec.Containers.map Container.Name →
        patchPodOps pod2 = patchPodOps pod ∧ patchPod pod2 = patchPod pod) ∧
      (∀ (k : Nat) (image : String), patchPod (pod.replaceImage k image) = patchPod pod) := by
  have hmain : ∀ pod2 : Pod,
      pod2.Spec.Containers.map Container.Name = pod.Spec.Containers.map Container.Name →
        patchPodOps pod2 = patchPodOps pod ∧ patchPod pod2 = patchPod pod := by
    intro pod2 h
    have hops : patchPodOps pod2 = patchPodOps pod := by
      simp only [patchPodOps, scanContainers_congr _ _ 0 (-1) h]
    exact ⟨hops, by rw [patchPod, patchPod, hops]⟩
  refine ⟨hmain, fun k image => (hmain (pod.replaceImage k image) ?_).2⟩
  exact map_name_replaceImageAt pod.Spec.Containers k image

/-- Witness for C19: scenario B after its patch is applied, and a pod with the
same container names and other metadata and images. -/
theorem patchPod_names_only_witness :
    patchPod (podB.replaceImage 1 launcherImage) = patchPod podB ∧
      patchPod { ObjectMeta := { Name := "other", Namespace := "kube-system" }
                 Spec := { Containers := [⟨"init", "p"⟩, ⟨"compute", "q"⟩] } } = patchPod podB :=
  ⟨(patchPod_names_only podB).2 1 launcherImage,
   ((patchPod_names_only podB).1
      { ObjectMeta := { Name := "other", Namespace := "kube-system" }
        Spec := { Containers := [⟨"init", "p"⟩, ⟨"compute", "q"⟩] } } rfl).2⟩

/-- C20: the response of `mutate` is a function of the raw embedded object alone:
two reviews whose requests embed the same bytes get equal responses, whatever the
namespace, name, kind, operation, user and UID of the requests are; a pod whose own
namespace is ignored is skipped whatever the namespace of the request is. -/
theorem mutate_raw_only (unmarshalPod : Bytes → Except String Pod)
    (ar1 ar2 : AdmissionReview) (req1 req2 : AdmissionRequest)
    (h1 : ar1.Request = some req1) (h2 : ar2.Request = some req2)
    (hraw : req1.Object.Raw = req2.Object.Raw) :
    mutate unmarshalPod ar1 = mutate unmarshalPod ar2 ∧
      (∀ pod, unmarshalPod req1.Object.Raw = .ok pod →
        pod.ObjectMeta.Namespace ∈ ignoredNamespaces →
        mutate unmarshalPod ar1 =
          some { UID := "", Allowed := true, Result := none, Patch := none,
                 PatchType := none }) := by
  constructor
  · simp only [mutate, h1, h2, hraw]
  · intro pod hdec hns
    have hmut : mutationRequired ignoredNamespaces pod.ObjectMeta = false := by
      rw [Bool.eq_false_iff]
      intro hc
      exact ((mutationRequired_eq_true_iff ignoredNamespaces pod.ObjectMeta).mp hc).1 hns
    simp [mutate, h1, hdec, hmut]

/-- Witness for C20: the scenario B pod, whose own namespace is `default`, sent
once in a request for namespace `kube-system` by another user and once in the
request of scenario B; both get the patch of scenario B. -/
theorem mutate_raw_only_witness :
    mutate (unmarshalSample podBJson podB)
        { Request := some
            { UID := "uid-9", Namespace := "kube-system", Name := "z", Operation := "UPDATE",
              UserInfo := { Username := "admin" }, Object := { Raw := bytesOf podBJson } } } =
      mutate (unmarshalSample podBJson podB) (reviewOf podBJson) ∧
    mutate (unmarshalSample podBJson podB) (reviewOf podBJson) =
      some { Allowed := true, Patch := some patchB, PatchType := some "JSONPatch" } :=
  ⟨(mutate_raw_only (unmarshalSample podBJson podB)
      { Request := some
          { UID := "uid-9", Namespace := "kube-system", Name := "z", Operation := "UPDATE",
            UserInfo := { Username := "admin" }, Object := { Raw := bytesOf podBJson } } }
      (reviewOf podBJson)
      { UID := "uid-9", Namespace := "kube-system", Name := "z", Operation := "UPDATE",
        UserInfo := { Username := "admin" }, Object := { Raw := bytesOf podBJson } }
      { UID := "uid-1"
        Kind := { Group := "", Version := "v1", Kind := "Pod" }
        Namespace := "default"
        Operation := "CREATE"
        Object := { Raw := bytesOf podBJson } }
      rfl rfl rfl).1,
   mutate_sample_B⟩

end Injector
